import Mathlib

/-!
Shallow embedding of the tsslint-rules-sample repository: the tree/type query
utilities (`src/type-utils/getSourceFileOfNode.ts`), the switch-exhaustiveness
rule (`src/unnamed/part_004`), the unnecessary-type-assertion /
non-null-assertion rule, the no-unnecessary-condition rule, the
prefer-nullish-coalescing rule, and the prefer-ts-expect-error rule.

TypeScript `ts.Type` objects are modelled as `Nat` handles inside a
`TypeSystem` record; handle equality models JavaScript reference identity
(`===`), which is exactly how the rules compare types.  Machine integers do
not overflow in any of the embedded code (all arithmetic is on array indices,
source offsets and small flag bitsets), so `Nat`/`Int` are used directly.
-/

/-! ## TypeScript `ts.TypeFlags` bit values (TypeScript 5.x) -/

def TF.Any : Nat := 1

def TF.Unknown : Nat := 2

def TF.StringFlag : Nat := 4

def TF.NumberFlag : Nat := 8

def TF.BigIntFlag : Nat := 64

def TF.StringLiteral : Nat := 128

def TF.NumberLiteral : Nat := 256

def TF.BooleanLiteral : Nat := 512

def TF.BigIntLiteral : Nat := 2048

def TF.ESSymbol : Nat := 4096

def TF.UniqueESSymbol : Nat := 8192

def TF.Void : Nat := 16384

def TF.Undefined : Nat := 32768

def TF.Null : Nat := 65536

def TF.Never : Nat := 131072

def TF.TypeParameter : Nat := 262144

def TF.Union : Nat := 1048576

def TF.Intersection : Nat := 2097152

def TF.IndexedAccess : Nat := 8388608

/-- `ts.TypeFlags.Literal = 2944` (string, number, bigint and boolean literal). -/
def TF.Literal : Nat := 2944

/-- `ts.TypeFlags.ESSymbolLike = ESSymbol | UniqueESSymbol`. -/
def TF.ESSymbolLike : Nat := 12288

/-- `ts.TypeFlags.TypeVariable = TypeParameter | IndexedAccess`. -/
def TF.TypeVariable : Nat := 8650752

/-! ## TypeScript `ts.SyntaxKind` values used by the embedded code -/

def SK.StringLiteralKind : Nat := 11

def SK.LessThanToken : Nat := 30

def SK.GreaterThanToken : Nat := 32

def SK.LessThanEqualsToken : Nat := 33

def SK.GreaterThanEqualsToken : Nat := 34

def SK.EqualsEqualsToken : Nat := 35

def SK.ExclamationEqualsToken : Nat := 36

def SK.EqualsEqualsEqualsToken : Nat := 37

def SK.ExclamationEqualsEqualsToken : Nat := 38

def SK.AmpersandAmpersandToken : Nat := 56

def SK.BarBarToken : Nat := 57

def SK.QuestionQuestionToken : Nat := 61

def SK.EqualsToken : Nat := 64

def SK.BarBarEqualsToken : Nat := 76

def SK.AmpersandAmpersandEqualsToken : Nat := 77

def SK.QuestionQuestionEqualsToken : Nat := 78

def SK.Identifier : Nat := 80

def SK.NullKeyword : Nat := 106

def SK.ThisKeyword : Nat := 110

def SK.UndefinedKeyword : Nat := 157

def SK.PropertyAccessExpression : Nat := 211

def SK.ElementAccessExpression : Nat := 212

def SK.CallExpression : Nat := 213

def SK.BinaryExpression : Nat := 226

def SK.ConditionalExpression : Nat := 227

def SK.IfStatement : Nat := 245

def SK.DoStatement : Nat := 246

def SK.WhileStatement : Nat := 247

def SK.ForStatement : Nat := 248

/-! ## The type oracle

A `ts.Type` is an opaque object handle; we model a handle as a `Nat` and the
checker-owned data reachable from it as functions of a `TypeSystem`:

* `flags t`      — the type object's own `.flags` bitset,
* `symbolName t` — `type.getSymbol()?.escapedName`,
* `parts t`      — `type.types`, the constituent list of a union or
  intersection type (meaningful only when the corresponding flag is set,
  exactly as in the compiler API).
-/

structure TypeSystem where
  flags : Nat → Nat
  symbolName : Nat → Option String
  parts : Nat → List Nat

/-- A `ts.Type` handle. -/
abbrev TyId := Nat

/-- `(allFlags & flag) !== 0`, the flag test underlying `ts-api-utils`. -/
def isFlagSet (allFlags flag : Nat) : Bool := allFlags &&& flag ≠ 0

/-- `tsutils.isTypeFlagSet(type, flag)`: tests the type object's own `.flags`
bitset, without decomposing unions (ts-api-utils semantics). -/
def tsIsTypeFlagSet (T : TypeSystem) (t : TyId) (flag : Nat) : Bool :=
  isFlagSet (T.flags t) flag

/-- `tsutils.unionTypeParts(type)`: `type.types` when the type is a union,
otherwise the one-element list of the type itself. -/
def unionTypeParts (T : TypeSystem) (t : TyId) : List TyId :=
  if tsIsTypeFlagSet T t TF.Union then T.parts t else [t]

/-- `tsutils.intersectionTypeParts(type)`. -/
def intersectionTypeParts (T : TypeSystem) (t : TyId) : List TyId :=
  if tsIsTypeFlagSet T t TF.Intersection then T.parts t else [t]

/-- `tsutils.isBooleanLiteralType(type)`. -/
def isBooleanLiteralType (T : TypeSystem) (t : TyId) : Bool :=
  tsIsTypeFlagSet T t TF.BooleanLiteral

/-- `type.isLiteral()` (TypeScript services): string, number or bigint
literal type. -/
def tyIsLiteralMethod (T : TypeSystem) (t : TyId) : Bool :=
  isFlagSet (T.flags t) (TF.StringLiteral ||| TF.NumberLiteral ||| TF.BigIntLiteral)

/-- The per-node type oracle handed to a rule invocation: `typeAt` is
`checker.getTypeAtLocation` keyed by node id, `baseConstraint` is
`checker.getBaseConstraintOfType`, `contextualType` is the repository's
`getContextualType` helper keyed by node id, and `typeToString` is
`checker.typeToString`. -/
structure Oracle where
  typeAt : Nat → TyId
  baseConstraint : TyId → Option TyId
  contextualType : Nat → Option TyId
  typeToString : TyId → String

/-- `getConstrainedTypeAtLocation(checker, node)` from
`src/type-utils/getSourceFileOfNode.ts`: the type at the node, replaced by its
base constraint when one exists. -/
def getConstrainedTypeAtLocation (o : Oracle) (nodeId : Nat) : TyId :=
  let nodeType := o.typeAt nodeId
  let constrained := o.baseConstraint nodeType
  constrained.getD nodeType

/-! ## Diagnostics

`report(message, start, end).withFix(desc, () => [{fileName, textChanges}])`
is modelled as a `Diag` carrying its span and the list of candidate fixes,
each fix being its list of text changes (the single file name is dropped). -/

structure TcSpan where
  start : Nat
  length : Nat
deriving DecidableEq, Repr

structure TextChange where
  newText : String
  span : TcSpan
deriving DecidableEq, Repr

structure Diag where
  message : String
  startPos : Nat
  endPos : Nat
  fixes : List (List TextChange)
deriving DecidableEq, Repr

/-! ## C1: `getTokenBefore` / `getTokenAfter`
(`src/type-utils/getSourceFileOfNode.ts`, lines 372-402)

A syntax node is modelled by its object identity and kind; the list
`parentChildren` stands for `node.parent.getChildren(sourceFile)` and its
length for `node.parent.getChildCount()`. -/

structure RawNode where
  id : Nat
  kind : Nat
deriving DecidableEq, Repr

/-- JavaScript `Array.prototype.indexOf`: first index of the element, `-1`
when absent. -/
def jsIndexOf : List RawNode → RawNode → Int
  | [], _ => -1
  | c :: cs, n =>
    if c = n then 0
    else
      let r := jsIndexOf cs n
      if r = -1 then -1 else r + 1

/-- The body of the scan loops of `getTokenBefore` / `getTokenAfter`, run for
`count` iterations.  The source tests `condition(node)` — the function's own
`node` parameter, not `children[i]` — and returns `node` itself, so the loop
body never reads the loop index. -/
def tokenScanLoop (node : RawNode) (condition : RawNode → Bool) : Nat → Option RawNode
  | 0 => none
  | n + 1 => if condition node then some node else tokenScanLoop node condition n

/-- `getTokenBefore(node, sourceFile, condition)`: the loop
`for (let i = children.indexOf(node) - 1; i >= 0; i--)` runs
`max(indexOf(node), 0)` iterations.  (`condition` is always supplied by the
callers, so the source's dead `!condition ||` escape is not modelled.) -/
def getTokenBefore (node : RawNode) (parentChildren : List RawNode)
    (condition : RawNode → Bool) : Option RawNode :=
  tokenScanLoop node condition (jsIndexOf parentChildren node).toNat

/-- `getTokenAfter(node, sourceFile, condition)`: the loop
`for (let i = children.indexOf(node) + 1; i < node.parent.getChildCount(); i++)`
runs `max(childCount - (indexOf(node) + 1), 0)` iterations. -/
def getTokenAfter (node : RawNode) (parentChildren : List RawNode)
    (condition : RawNode → Bool) : Option RawNode :=
  tokenScanLoop node condition
    ((parentChildren.length : Int) - (jsIndexOf parentChildren node + 1)).toNat

/-- The `<` token, a type node and the `>` token of `<number>(3 + 5)`:
the children of the enclosing `TypeAssertionExpression`. -/
def tokLessThan : RawNode := ⟨0, SK.LessThanToken⟩

def typeNodeNumber : RawNode := ⟨1, 150⟩

def tokGreaterThan : RawNode := ⟨2, SK.GreaterThanToken⟩

/-- The condition passed by the angle-bracket-assertion fix:
`node => node.kind === ts.SyntaxKind.GreaterThanToken`. -/
def isGreaterThanTokenCond (n : RawNode) : Bool := n.kind = SK.GreaterThanToken

/-! ## The switch-exhaustiveness rule (`src/unnamed/part_004`) -/

/-- A clause of `node.caseBlock.clauses`: a `default` clause or a `case`
clause with the id of its tested expression, plus its source span
(`getStart(sourceFile)` / `getEnd()`). -/
structure CaseClause where
  isDefault : Bool
  exprId : Nat
  startPos : Nat
  endPos : Nat
deriving DecidableEq, Repr

/-- A `ts.SwitchStatement`: the discriminant expression's id and start, the
clause list, the statement's span, and the case block's brace positions
(`caseBlock.getFirstToken().getStart(sourceFile)` and
`caseBlock.getLastToken().getEnd()`; the parser guarantees these tokens are
the braces, which the source merely re-asserts with `nullThrows`). -/
structure SwitchStmt where
  exprId : Nat
  exprStart : Nat
  clauses : List CaseClause
  startPos : Nat
  endPos : Nat
  openBraceStart : Nat
  closeBraceEnd : Nat
deriving DecidableEq, Repr

/-- The pieces of `ts.SourceFile` the rules read: the file name and
`getLineAndCharacterOfPosition(pos).character`. -/
structure SourceFileModel where
  fileName : String
  column : Nat → Nat

structure SwitchMetadata where
  symbolName : Option String
  defaultCase : Option CaseClause
  missingLiteralBranchTypes : List TyId
  containsNonLiteralType : Bool
deriving DecidableEq, Repr

/-- `isTypeLiteralLikeType(type)`: `Literal | Undefined | Null |
UniqueESSymbol` on the type's own flags. -/
def isTypeLiteralLikeType (T : TypeSystem) (t : TyId) : Bool :=
  isFlagSet (T.flags t) (TF.Literal ||| TF.Undefined ||| TF.Null ||| TF.UniqueESSymbol)

/-- `doesTypeContainNonLiteralType(type)`: some union constituent all of whose
intersection constituents are non-literal-like. -/
def doesTypeContainNonLiteralType (T : TypeSystem) (t : TyId) : Bool :=
  (unionTypeParts T t).any (fun up =>
    (intersectionTypeParts T up).all (fun subType => !(isTypeLiteralLikeType T subType)))

/-- `requiresQuoting(ts, name, target)` (`src/unnamed/part_003` and the utils
file): empty names, names whose first character is not an identifier start,
or with a later character that is not an identifier part.  The external
`ts.isIdentifierStart` / `ts.isIdentifierPart` checks (already specialised to
the compiler target) are passed in as predicates on characters. -/
def requiresQuoting (isIdentStart isIdentPart : Char → Bool) (name : String) : Bool :=
  match name.data with
  | [] => true
  | c :: rest =>
    if !(isIdentStart c) then true
    else rest.any (fun ch => !(isIdentPart ch))

/-- `getSwitchMetadata(node)`: the default clause, the discriminant's symbol
name, whether it contains a non-literal constituent, and every literal-like
intersection part of a union part that is not identity-equal to an existing
case clause's constrained type.  (`caseTypes` is a JS `Set` of type object
references, used only for membership, hence a list with `contains`.) -/
def getSwitchMetadata (T : TypeSystem) (o : Oracle) (node : SwitchStmt) : SwitchMetadata :=
  let defaultCase := node.clauses.find? (fun c => c.isDefault)
  let discriminantType := getConstrainedTypeAtLocation o node.exprId
  let symbolName := T.symbolName discriminantType
  let containsNonLiteralType := doesTypeContainNonLiteralType T discriminantType
  let caseTypes := (node.clauses.filter (fun c => !c.isDefault)).map
      (fun c => getConstrainedTypeAtLocation o c.exprId)
  let missingLiteralBranchTypes :=
    (unionTypeParts T discriminantType).flatMap (fun unionPart =>
      (intersectionTypeParts T unionPart).filter (fun intersectionPart =>
        !(caseTypes.contains intersectionPart || !(isTypeLiteralLikeType T intersectionPart))))
  { symbolName, defaultCase, missingLiteralBranchTypes, containsNonLiteralType }

/-- `' '.repeat(n)`. -/
def spacesIndent (n : Nat) : String := ⟨List.replicate n ' '⟩

/-- `.replaceAll("'", "\\'").replaceAll('\n', '\\n').replaceAll('\r', '\\r')`
(the later passes do not touch the output of the earlier ones, so one pass is
equivalent). -/
def jsEscapeQuoteNewlines (s : String) : String :=
  ⟨s.data.flatMap (fun c =>
    if c = '\x27' then ['\\', '\x27']
    else if c = '\n' then ['\\', 'n']
    else if c = '\r' then ['\\', 'r']
    else [c])⟩

/-- `.replaceAll('\\', '\\\\').replaceAll("'", "\\'")`, applied in that
order. -/
def jsEscapeBackslashQuote (s : String) : String :=
  let s1 : List Char := s.data.flatMap (fun c => if c = '\\' then ['\\', '\\'] else [c])
  ⟨s1.flatMap (fun c => if c = '\x27' then ['\\', '\x27'] else [c])⟩

/-- The template of a synthesized missing-case branch:
`case ${caseTest}: { throw new Error('Not implemented yet: ${escaped} case') }`. -/
def caseTemplate (caseTest : String) : String :=
  "case " ++ caseTest ++ ": \x7b throw new Error(\x27Not implemented yet: "
    ++ jsEscapeBackslashQuote caseTest ++ " case\x27) \x7d"

/-- Whether a JS `string | undefined` value is truthy (defined and
non-empty); `missingBranchName || missingBranchName === ''` additionally
accepts the empty string, i.e. tests definedness. -/
def jsTruthyStr : Option String → Bool
  | some s => s != ""
  | none => false

/-- The body of `fixSwitch`'s per-branch loop: `null` yields the default
branch, a type yields a `case` branch, using bracket notation on the
discriminant's symbol name when the member name would require quoting.
(`missingBranchName!` for a unique-symbol type without a symbol is modelled
by JS string coercion of `undefined`; real unique-symbol types always carry
their symbol.) -/
def missingCaseText (T : TypeSystem) (o : Oracle) (isIdentStart isIdentPart : Char → Bool)
    (symbolName : Option String) : Option TyId → String
  | none => "default: \x7b throw new Error(\x27default case\x27) \x7d"
  | some missingBranchType =>
    let missingBranchName := T.symbolName missingBranchType
    let caseTest0 :=
      if tsIsTypeFlagSet T missingBranchType TF.ESSymbolLike then
        missingBranchName.getD "undefined"
      else o.typeToString missingBranchType
    let caseTest :=
      if jsTruthyStr symbolName && missingBranchName.isSome
          && requiresQuoting isIdentStart isIdentPart (missingBranchName.getD "") then
        (symbolName.getD "") ++ "[\x27"
          ++ jsEscapeQuoteNewlines (missingBranchName.getD "") ++ "\x27]"
      else caseTest0
    caseTemplate caseTest

/-- `fixSwitch(node, missingBranchTypes, symbolName)`: one synthesized branch
per missing type (`null` = a default branch), indented like the last existing
case (or like the switch itself when there is none), inserted as a
zero-length change at the last case's start, or replacing the whole brace
span when no cases exist. -/
def fixSwitch (T : TypeSystem) (o : Oracle) (sf : SourceFileModel)
    (isIdentStart isIdentPart : Char → Bool) (node : SwitchStmt)
    (missingBranchTypes : List (Option TyId)) (symbolName : Option String) :
    List TextChange :=
  let lastCase := node.clauses.getLast?
  let caseIndent :=
    match lastCase with
    | some lc => spacesIndent (sf.column lc.startPos)
    | none => spacesIndent (sf.column node.startPos)
  let missingCases :=
    missingBranchTypes.map (missingCaseText T o isIdentStart isIdentPart symbolName)
  let fixString := String.intercalate "\n" (missingCases.map (fun code => caseIndent ++ code))
  match lastCase with
  | some lc => [⟨"\n" ++ fixString, ⟨lc.startPos, 0⟩⟩]
  | none =>
    [⟨String.intercalate "\n" ["\x7b", fixString, caseIndent ++ "\x7d"],
      ⟨node.openBraceStart, node.closeBraceEnd - node.openBraceStart⟩⟩]

/-- `checkSwitchExhaustive(node, switchMetadata)`: report (with the joined
missing-branch names) and attach the `fixSwitch` fix exactly when literal
branches are missing and no `default` clause exists. -/
def checkSwitchExhaustive (T : TypeSystem) (o : Oracle) (sf : SourceFileModel)
    (isIdentStart isIdentPart : Char → Bool) (node : SwitchStmt)
    (switchMetadata : SwitchMetadata) : List Diag :=
  if 0 < switchMetadata.missingLiteralBranchTypes.length ∧
      switchMetadata.defaultCase = none then
    let missingBranches := String.intercalate " | "
      (switchMetadata.missingLiteralBranchTypes.map (fun missingType =>
        if tsIsTypeFlagSet T missingType TF.ESSymbolLike then
          "typeof " ++ ((T.symbolName missingType).getD "undefined")
        else o.typeToString missingType))
    [⟨"Switch is not exhaustive. Cases not matched: " ++ missingBranches,
      node.startPos, node.endPos,
      [fixSwitch T o sf isIdentStart isIdentPart node
        (switchMetadata.missingLiteralBranchTypes.map some) switchMetadata.symbolName]⟩]
  else []

/-- `checkSwitchUnnecessaryDefaultCase(switchMetadata)`: with
`allowDefaultCaseForExhaustiveSwitch` off, flag the `default` clause when no
literal branches are missing, a default exists, and the discriminant contains
no non-literal constituent. -/
def checkSwitchUnnecessaryDefaultCase (allowDefaultCaseForExhaustiveSwitch : Bool)
    (switchMetadata : SwitchMetadata) : List Diag :=
  if allowDefaultCaseForExhaustiveSwitch then []
  else
    match switchMetadata.defaultCase with
    | some defaultCase =>
      if switchMetadata.missingLiteralBranchTypes.length = 0 ∧
          ¬ switchMetadata.containsNonLiteralType then
        [⟨"The switch statement is exhaustive, so the default case is unnecessary.",
          defaultCase.startPos, defaultCase.endPos, []⟩]
      else []
    | none => []

/-- `checkSwitchNoUnionDefaultCase(node, switchMetadata)`. -/
def checkSwitchNoUnionDefaultCase (requireDefaultForNonUnion : Bool)
    (T : TypeSystem) (o : Oracle) (sf : SourceFileModel)
    (isIdentStart isIdentPart : Char → Bool) (node : SwitchStmt)
    (switchMetadata : SwitchMetadata) : List Diag :=
  if ¬ requireDefaultForNonUnion then []
  else if switchMetadata.containsNonLiteralType ∧ switchMetadata.defaultCase = none then
    [⟨"Switch is not exhaustive. Cases not matched: default",
      node.exprStart, node.endPos,
      [fixSwitch T o sf isIdentStart isIdentPart node [none] none]⟩]
  else []

/-- The rule's per-switch-statement callback body: the three checks run in
source order on the shared metadata. -/
def switchRuleDiags (allowDefaultCaseForExhaustiveSwitch requireDefaultForNonUnion : Bool)
    (T : TypeSystem) (o : Oracle) (sf : SourceFileModel)
    (isIdentStart isIdentPart : Char → Bool) (node : SwitchStmt) : List Diag :=
  let switchMetadata := getSwitchMetadata T o node
  checkSwitchExhaustive T o sf isIdentStart isIdentPart node switchMetadata
    ++ checkSwitchUnnecessaryDefaultCase allowDefaultCaseForExhaustiveSwitch switchMetadata
    ++ checkSwitchNoUnionDefaultCase requireDefaultForNonUnion T o sf
        isIdentStart isIdentPart node switchMetadata

/-- Concrete data for the C2 witness: `type T = 'a' | 'b'`, a switch over a
`T`-typed discriminant with a single `case 'a'` clause and no default. -/
def c2T : TypeSystem where
  flags := fun t => if t = 1 then 128 else if t = 2 then 128 else if t = 3 then 1048576 else 0
  symbolName := fun _ => none
  parts := fun t => if t = 3 then [1, 2] else []

def c2O : Oracle where
  typeAt := fun n => if n = 10 then 3 else if n = 11 then 1 else 0
  baseConstraint := fun _ => none
  contextualType := fun _ => none
  typeToString := fun t => if t = 1 then "\"a\"" else if t = 2 then "\"b\"" else "?"

def c2Sf : SourceFileModel where
  fileName := "f.ts"
  column := fun _ => 2

def c2Node : SwitchStmt where
  exprId := 10
  exprStart := 8
  clauses := [⟨false, 11, 20, 30⟩]
  startPos := 0
  endPos := 40
  openBraceStart := 15
  closeBraceEnd := 39

def charTrue : Char → Bool := fun _ => true

/-- Concrete data for the C7 witness: a switch over the literal type `'a'`
with a `case 'a'` clause and a `default` clause. -/
def c7T : TypeSystem where
  flags := fun t => if t = 1 then 128 else 0
  symbolName := fun _ => none
  parts := fun _ => []

def c7O : Oracle where
  typeAt := fun _ => 1
  baseConstraint := fun _ => none
  contextualType := fun _ => none
  typeToString := fun _ => "\"a\""

def c7Node : SwitchStmt where
  exprId := 10
  exprStart := 8
  clauses := [⟨false, 11, 20, 30⟩, ⟨true, 0, 32, 38⟩]
  startPos := 0
  endPos := 40
  openBraceStart := 15
  closeBraceEnd := 39

/-! ## The unnecessary-type-assertion / non-null-assertion rule
(`src/type-utils/getSourceFileOfNode.ts`, middle document) -/

/-- The non-`undefined` union constituents of a type,
`tsutils.unionTypeParts(t).filter(part => !tsutils.isTypeFlagSet(part, ts.TypeFlags.Undefined))`. -/
def nonUndefinedParts (T : TypeSystem) (t : TyId) : List TyId :=
  (unionTypeParts T t).filter (fun part => !(tsIsTypeFlagSet T part TF.Undefined))

/-- `isTypeUnchanged(uncast, cast)`: identity, or — when both types carry the
`Undefined` flag and `exactOptionalPropertyTypes` is enabled — equality of
the non-`undefined` union parts as identity-sets of equal size. -/
def isTypeUnchanged (exactOptionalPropertyTypes : Bool) (T : TypeSystem)
    (uncast cast : TyId) : Bool :=
  if uncast = cast then true
  else if tsIsTypeFlagSet T uncast TF.Undefined && tsIsTypeFlagSet T cast TF.Undefined
      && exactOptionalPropertyTypes then
    let uncastParts := nonUndefinedParts T uncast
    let castParts := nonUndefinedParts T cast
    if uncastParts.length ≠ castParts.length then false
    else castParts.all (fun part => uncastParts.contains part)
  else false

/-- Concrete types for C3: handle 1 = `string` (flags `String`), handle 2 =
`undefined` (flags `Undefined`), handle 3 = the union `string | undefined`
(flags `Union`, constituents `[1, 2]` — a union object's own flag bitset does
not contain its constituents' flags, as in the compiler). -/
def c3T : TypeSystem where
  flags := fun t => if t = 1 then 4 else if t = 2 then 32768 else if t = 3 then 1048576 else 0
  symbolName := fun _ => none
  parts := fun t => if t = 3 then [1, 2] else []

/-- Modelled from the spec: the repository's `isNullableType` helper lives in
`src/type-utils` outside the provided sources; per the spec, "`isNullable(type)`:
true if any union constituent carries the null or undefined flag". -/
def isNullableType (T : TypeSystem) (t : TyId) : Bool :=
  (unionTypeParts T t).any (fun part => isFlagSet (T.flags part) (TF.Null ||| TF.Undefined))

/-- A `ts.NonNullExpression` `expr!` as the rule reads it: its own id (the
key for `getContextualType`), the operand expression's id, whether the
operand is an identifier, the operand's end offset, the assertion's span,
and the shape of its parent (`ts.isBinaryExpression(node.parent)`, the
parent's operator token kind, and whether the parent's `left` is this
node). -/
structure NonNullNode where
  id : Nat
  exprId : Nat
  exprIsIdentifier : Bool
  exprEnd : Nat
  startPos : Nat
  endPos : Nat
  parentIsBinary : Bool
  parentOpKind : Nat
  parentLeftIsNode : Bool
deriving DecidableEq, Repr

/-- The `ts.isNonNullExpression(node)` branch of the rule's callback.
`isPossiblyUsedBeforeAssigned` inspects declarations that live outside this
model, so it is passed in as an oracle keyed by the operand's node id. -/
def nonNullDiags (T : TypeSystem) (o : Oracle)
    (isPossiblyUsedBeforeAssigned : Nat → Bool) (node : NonNullNode) : List Diag :=
  if node.parentIsBinary && node.parentOpKind = SK.EqualsToken then
    if node.parentLeftIsNode then
      [⟨"This assertion is unnecessary since the receiver accepts the original type of the expression.",
        node.startPos, node.endPos,
        [[⟨"", ⟨node.exprEnd, node.endPos - node.exprEnd⟩⟩]]⟩]
    else []
  else
    let type := getConstrainedTypeAtLocation o node.exprId
    if !(isNullableType T type) && !(tsIsTypeFlagSet T type TF.Void) then
      if node.exprIsIdentifier && isPossiblyUsedBeforeAssigned node.exprId then []
      else
        [⟨"This assertion is unnecessary since it does not change the type of the expression.",
          node.startPos, node.endPos,
          [[⟨"", ⟨node.endPos - 1, 1⟩⟩]]⟩]
    else
      match o.contextualType node.id with
      | none => []
      | some contextualType =>
        let typeIncludesUndefined := tsIsTypeFlagSet T type TF.Undefined
        let typeIncludesNull := tsIsTypeFlagSet T type TF.Null
        let typeIncludesVoid := tsIsTypeFlagSet T type TF.Void
        let contextualTypeIncludesUndefined := tsIsTypeFlagSet T contextualType TF.Undefined
        let contextualTypeIncludesNull := tsIsTypeFlagSet T contextualType TF.Null
        let contextualTypeIncludesVoid := tsIsTypeFlagSet T contextualType TF.Void
        let isValidUndefined :=
          if typeIncludesUndefined then contextualTypeIncludesUndefined else true
        let isValidNull := if typeIncludesNull then contextualTypeIncludesNull else true
        let isValidVoid := if typeIncludesVoid then contextualTypeIncludesVoid else true
        if isValidUndefined && isValidNull && isValidVoid then
          [⟨"This assertion is unnecessary since the receiver accepts the original type of the expression.",
            node.startPos, node.endPos,
            [[⟨"", ⟨node.exprEnd, node.endPos - node.exprEnd⟩⟩]]⟩]
        else []

/-- Concrete types for C4: handle 1 = `string`, handle 2 = `undefined`,
handle 3 = the union `string | undefined`. -/
def c4T : TypeSystem where
  flags := fun t => if t = 1 then 4 else if t = 2 then 32768 else if t = 3 then 1048576 else 0
  symbolName := fun _ => none
  parts := fun t => if t = 3 then [1, 2] else []

/-- C4 oracle: the operand (node 20) has type `string | undefined`; the
contextual type of the assertion (node 21) is plain `string`. -/
def c4O : Oracle where
  typeAt := fun n => if n = 20 then 3 else 0
  baseConstraint := fun _ => none
  contextualType := fun n => if n = 21 then some 1 else none
  typeToString := fun _ => ""

/-- The non-null assertion `expr!` at offsets 50..56 over an identifier
operand ending at 55, not inside an assignment. -/
def c4Node : NonNullNode where
  id := 21
  exprId := 20
  exprIsIdentifier := true
  exprEnd := 55
  startPos := 50
  endPos := 56
  parentIsBinary := false
  parentOpKind := 0
  parentLeftIsNode := false

/-! ## The no-unnecessary-condition rule (`src/rules/no-unnecessary-condition.ts`) -/

/-- The rule's `isLiteral`: boolean literal, exactly `undefined`, exactly
`null`, exactly `void` (the flag bitsets compared with `===`), or a literal
per `type.isLiteral()`. -/
def isLiteral (T : TypeSystem) (t : TyId) : Bool :=
  isBooleanLiteralType T t
    || (T.flags t == TF.Undefined)
    || (T.flags t == TF.Null)
    || (T.flags t == TF.Void)
    || tyIsLiteralMethod T t

/-- Modelled from the spec: the repository's `getTypeFlags` / `isTypeFlagSet`
helpers live in `src/type-utils`, outside the provided sources.  Per the
spec, the rules reason about what a type "can contain", i.e. the semantic
flags aggregated over the type's union constituents. -/
def getTypeFlags (T : TypeSystem) (t : TyId) : Nat :=
  (unionTypeParts T t).foldl (fun fl part => fl ||| T.flags part) 0

/-- Modelled from the spec: `isTypeFlagSet` over the aggregated flags. -/
def localIsTypeFlagSet (T : TypeSystem) (t : TyId) (flag : Nat) : Bool :=
  isFlagSet (getTypeFlags T t) flag

def BOOL_OPERATORS : List Nat :=
  [SK.LessThanToken, SK.GreaterThanToken, SK.LessThanEqualsToken,
   SK.GreaterThanEqualsToken, SK.EqualsEqualsToken, SK.EqualsEqualsEqualsToken,
   SK.ExclamationEqualsToken, SK.ExclamationEqualsEqualsToken]

/-- A `ts.BinaryExpression` as
`checkIfBinaryExpressionIsNecessaryConditional` reads it. -/
structure BinExpr where
  opKind : Nat
  leftId : Nat
  rightId : Nat
  startPos : Nat
  endPos : Nat
deriving DecidableEq, Repr

/-- The local `isComparable(type, flag)` closure: widens the flag with
`Any | Unknown | TypeParameter | TypeVariable`, and with the nullish flags
for loose (`==` / `!=`) comparisons. -/
def isComparable (T : TypeSystem) (opKind : Nat) (t : TyId) (flag : Nat) : Bool :=
  let flag1 := flag ||| TF.Any ||| TF.Unknown ||| TF.TypeParameter ||| TF.TypeVariable
  let flag2 :=
    if opKind = SK.EqualsEqualsToken ∨ opKind = SK.ExclamationEqualsToken then
      flag1 ||| TF.Null ||| TF.Undefined ||| TF.Void
    else flag1
  localIsTypeFlagSet T t flag2

/-- `checkIfBinaryExpressionIsNecessaryConditional(node)`: comparisons whose
sides are both literal-typed are reported outright; under strict null checks
a side whose flags are exactly `undefined`/`null` compared against a
non-overlapping other side is reported as having no overlap. -/
def checkIfBinaryExpressionIsNecessaryConditional (T : TypeSystem) (o : Oracle)
    (isStrictNullChecks : Bool) (node : BinExpr) : List Diag :=
  if !(BOOL_OPERATORS.contains node.opKind) then []
  else
    let leftType := getConstrainedTypeAtLocation o node.leftId
    let rightType := getConstrainedTypeAtLocation o node.rightId
    if isLiteral T leftType && isLiteral T rightType then
      [⟨"Unnecessary conditional, both sides of the expression are literal values.",
        node.startPos, node.endPos, []⟩]
    else if isStrictNullChecks
        && ((T.flags leftType == TF.Undefined
              && !(isComparable T node.opKind rightType (TF.Undefined ||| TF.Void)))
          || (T.flags rightType == TF.Undefined
              && !(isComparable T node.opKind leftType (TF.Undefined ||| TF.Void)))
          || (T.flags leftType == TF.Null
              && !(isComparable T node.opKind rightType TF.Null))
          || (T.flags rightType == TF.Null
              && !(isComparable T node.opKind leftType TF.Null))) then
      [⟨"Unnecessary conditional, the types have no overlap.",
        node.startPos, node.endPos, []⟩]
    else []

/-- The rule's up-front configuration check: a zero-span diagnostic at file
start when `strictNullChecks` is off and not explicitly allowed. -/
def condRuleConfigDiags
    (isStrictNullChecks allowRuleToRunWithoutStrictNullChecksIKnowWhatIAmDoing : Bool) :
    List Diag :=
  if !isStrictNullChecks && !allowRuleToRunWithoutStrictNullChecksIKnowWhatIAmDoing then
    [⟨"This rule requires the \x60strictNullChecks\x60 compiler option to be turned on to function correctly.",
      0, 0, []⟩]
  else []

/-- What the `cb` dispatch reads off a node: its kind and whether it has a
`questionDotToken`. -/
structure NodeHead where
  kind : Nat
  hasQuestionDot : Bool
deriving DecidableEq, Repr

/-- The branch of the rule's `cb` if/else-if chain a node is routed to,
one constructor per handler call site. -/
inductive CbBranch where
  | binaryB
  | callB
  | conditionalB
  | doB
  | forB
  | ifB
  | whileB
  | optionalMemberB
  | optionalCallB
  | otherB
deriving DecidableEq, Repr

/-- The `cb` dispatch of the no-unnecessary-condition rule
(`src/rules/no-unnecessary-condition.ts`, lines 670-714), in source order:
binary, call, conditional, do, for, if, while, optional member access, and
finally `ts.isCallExpression(node) && node.questionDotToken` — the branch the
claim C9 is about. -/
def condRuleDispatch (n : NodeHead) : CbBranch :=
  if n.kind = SK.BinaryExpression then .binaryB
  else if n.kind = SK.CallExpression then .callB
  else if n.kind = SK.ConditionalExpression then .conditionalB
  else if n.kind = SK.DoStatement then .doB
  else if n.kind = SK.ForStatement then .forB
  else if n.kind = SK.IfStatement then .ifB
  else if n.kind = SK.WhileStatement then .whileB
  else if (n.kind = SK.PropertyAccessExpression ∨ n.kind = SK.ElementAccessExpression)
      ∧ n.hasQuestionDot = true then .optionalMemberB
  else if n.kind = SK.CallExpression ∧ n.hasQuestionDot = true then .optionalCallB
  else .otherB

/-- The sub-dispatch on binary operator kinds inside the `cb` binary branch:
`||=`/`&&=`, then `??=`, then `??`/`||`/`&&`, and everything else —
comparisons included — falls through to
`checkIfBinaryExpressionIsNecessaryConditional`. -/
inductive BinOpBranch where
  | logicalAssignB
  | nullishAssignB
  | logicalB
  | comparisonB
deriving DecidableEq, Repr

def condRuleBinaryDispatch (opKind : Nat) : BinOpBranch :=
  if [SK.BarBarEqualsToken, SK.AmpersandAmpersandEqualsToken].contains opKind then
    .logicalAssignB
  else if opKind = SK.QuestionQuestionEqualsToken then .nullishAssignB
  else if opKind = SK.QuestionQuestionToken ∨ opKind = SK.BarBarToken
      ∨ opKind = SK.AmpersandAmpersandToken then .logicalB
  else .comparisonB

/-- Types and oracle for the C8 witness: `1 === 1`, both sides of numeric
literal type `1`. -/
def c8T : TypeSystem where
  flags := fun t => if t = 1 then 256 else 0
  symbolName := fun _ => none
  parts := fun _ => []

def c8O : Oracle where
  typeAt := fun _ => 1
  baseConstraint := fun _ => none
  contextualType := fun _ => none
  typeToString := fun _ => "1"

def c8Node : BinExpr where
  opKind := 37
  leftId := 100
  rightId := 101
  startPos := 4
  endPos := 11

/-! ## The prefer-nullish-coalescing rule
(`src/rules/prefer-nullish-coalescing.ts`, ternary branch) -/

/-- An expression node as the ternary logic reads it: atoms carry their kind
and source text (`getText(sourceFile)`), binary expressions their operator
token kind and operands, property accesses their object and name.  Every
node carries its object id, the key for `checker.getTypeAtLocation`.  In
the compiler's AST an expression-position `undefined` is an `Identifier`
(kind 80) whose text is `undefined`; kind 157 (`UndefinedKeyword`) occurs
only in type positions. -/
inductive TsExpr where
  | atom (id : Nat) (kind : Nat) (text : String)
  | binary (id : Nat) (opKind : Nat) (l r : TsExpr) (text : String)
  | propAccess (id : Nat) (obj nm : TsExpr) (text : String)
deriving DecidableEq, Repr

def TsExpr.kind : TsExpr → Nat
  | .atom _ k _ => k
  | .binary _ _ _ _ _ => SK.BinaryExpression
  | .propAccess _ _ _ _ => SK.PropertyAccessExpression

def TsExpr.nodeId : TsExpr → Nat
  | .atom i _ _ => i
  | .binary i _ _ _ _ => i
  | .propAccess i _ _ _ => i

def TsExpr.getText : TsExpr → String
  | .atom _ _ t => t
  | .binary _ _ _ _ t => t
  | .propAccess _ _ _ t => t

/-- `tsutils.isNullLiteral(node)`. -/
def tsutilsIsNullLiteral (e : TsExpr) : Bool := e.kind = SK.NullKeyword

/-- `isUndefinedIdentifier(i)` from the utils document of
`src/type-utils/getSourceFileOfNode.ts`: `i.kind === 157`. -/
def isUndefinedIdentifier (e : TsExpr) : Bool := e.kind = SK.UndefinedKeyword

/-- `isNodeEqual(a, b, sourceFile)` from the same utils document. -/
def isNodeEqual (a b : TsExpr) : Bool :=
  if a.kind ≠ b.kind then false
  else if a.kind = SK.ThisKeyword ∧ b.kind = SK.ThisKeyword then true
  else if a.kind = SK.StringLiteralKind ∧ b.kind = SK.StringLiteralKind then
    a.getText == b.getText
  else if a.kind = SK.Identifier ∧ b.kind = SK.Identifier then a.getText == b.getText
  else
    match a, b with
    | .propAccess _ aObj aName _, .propAccess _ bObj bName _ =>
      isNodeEqual aName bName && isNodeEqual aObj bObj
    | _, _ => false

/-- A `ts.ConditionalExpression` as the ternary branch reads it
(`getStart(sourceFile)`, `getEnd()`, `getWidth(sourceFile)`). -/
structure CondExprNode where
  id : Nat
  condition : TsExpr
  whenTrue : TsExpr
  whenFalse : TsExpr
  startPos : Nat
  endPos : Nat
  width : Nat
deriving DecidableEq, Repr

/-- The operator-detection prologue of the ternary branch
(`src/rules/prefer-nullish-coalescing.ts`, lines 72-160): the detected
equality operator (if any) and `nodesInsideTestExpression`. -/
def ternaryOperatorAndNodes : TsExpr → Option Nat × List TsExpr
  | .binary _ op l r _ =>
    if op = SK.EqualsEqualsToken ∨ op = SK.ExclamationEqualsToken
        ∨ op = SK.EqualsEqualsEqualsToken ∨ op = SK.ExclamationEqualsEqualsToken then
      (some op, [l, r])
    else
      match l, r with
      | .binary _ lop ll lr _, .binary _ rop rl rr _ =>
        if op = SK.BarBarToken ∨ op = SK.AmpersandAmpersandToken then
          let nodes := [ll, lr, rl, rr]
          if op = SK.BarBarToken then
            if lop = SK.EqualsEqualsEqualsToken ∧ rop = SK.EqualsEqualsEqualsToken then
              (some SK.EqualsEqualsEqualsToken, nodes)
            else if ((lop = SK.EqualsEqualsEqualsToken ∨ rop = SK.EqualsEqualsEqualsToken)
                  ∧ (lop = SK.EqualsEqualsToken ∨ rop = SK.EqualsEqualsToken))
                ∨ (lop = SK.EqualsEqualsToken ∧ rop = SK.EqualsEqualsToken) then
              (some SK.EqualsEqualsToken, nodes)
            else (none, nodes)
          else
            if lop = SK.ExclamationEqualsEqualsToken
                ∧ rop = SK.ExclamationEqualsEqualsToken then
              (some SK.ExclamationEqualsEqualsToken, nodes)
            else if ((lop = SK.ExclamationEqualsEqualsToken
                    ∨ rop = SK.ExclamationEqualsEqualsToken)
                  ∧ (lop = SK.ExclamationEqualsToken ∨ rop = SK.ExclamationEqualsToken))
                ∨ (lop = SK.ExclamationEqualsToken ∧ rop = SK.ExclamationEqualsToken) then
              (some SK.ExclamationEqualsToken, nodes)
            else (none, nodes)
        else (none, [l, r])
      | _, _ => (none, [l, r])
  | _ => (none, [])

/-- The `for (const testNode of nodesInsideTestExpression)` loop, threading
`(identifier, hasUndefinedCheck, hasNullCheck)`; `none` models the loop's
early `return`, which abandons the ternary without reporting. -/
def scanTestNodes (operator : Nat) (whenTrue whenFalse : TsExpr) :
    List TsExpr → Option TsExpr × Bool × Bool → Option (Option TsExpr × Bool × Bool)
  | [], st => some st
  | testNode :: rest, (identifier, hasUndefinedCheck, hasNullCheck) =>
    if tsutilsIsNullLiteral testNode then
      scanTestNodes operator whenTrue whenFalse rest (identifier, hasUndefinedCheck, true)
    else if isUndefinedIdentifier testNode then
      scanTestNodes operator whenTrue whenFalse rest (identifier, true, hasNullCheck)
    else if (operator = SK.ExclamationEqualsEqualsToken
          ∨ operator = SK.ExclamationEqualsToken)
        ∧ isNodeEqual testNode whenTrue = true then
      scanTestNodes operator whenTrue whenFalse rest
        (some testNode, hasUndefinedCheck, hasNullCheck)
    else if (operator = SK.EqualsEqualsEqualsToken ∨ operator = SK.EqualsEqualsToken)
        ∧ isNodeEqual testNode whenFalse = true then
      scanTestNodes operator whenTrue whenFalse rest
        (some testNode, hasUndefinedCheck, hasNullCheck)
    else none

/-- The rule's `isFixable` closure (lines 193-226). -/
def ternaryIsFixable (T : TypeSystem) (o : Oracle) (operator : Nat)
    (identifier : TsExpr) (hasUndefinedCheck hasNullCheck : Bool) : Bool :=
  if hasUndefinedCheck == hasNullCheck then hasUndefinedCheck
  else if operator = SK.EqualsEqualsToken ∨ operator = SK.ExclamationEqualsToken then true
  else
    let type := o.typeAt identifier.nodeId
    let flags := getTypeFlags T type
    if isFlagSet flags (TF.Any ||| TF.Unknown) then false
    else
      let hasNullType := isFlagSet flags TF.Null
      if hasUndefinedCheck && !hasNullType then true
      else
        let hasUndefinedType := isFlagSet flags TF.Undefined
        hasNullCheck && !hasUndefinedType

/-- The `ts.isConditionalExpression(node)` branch of the
prefer-nullish-coalescing rule (lines 67-254): detect the operator, scan the
test nodes, and when fixable report with the `left ?? right` rewrite of the
whole ternary. -/
def ternaryCheck (T : TypeSystem) (o : Oracle) (ignoreTernaryTests : Bool)
    (node : CondExprNode) : List Diag :=
  if ignoreTernaryTests then []
  else
    match ternaryOperatorAndNodes node.condition with
    | (none, _) => []
    | (some operator, nodesInsideTestExpression) =>
      match scanTestNodes operator node.whenTrue node.whenFalse
          nodesInsideTestExpression (none, false, false) with
      | none => []
      | some (none, _, _) => []
      | some (some identifier, hasUndefinedCheck, hasNullCheck) =>
        if ternaryIsFixable T o operator identifier hasUndefinedCheck hasNullCheck then
          let lr :=
            if operator = SK.EqualsEqualsEqualsToken ∨ operator = SK.EqualsEqualsToken then
              (node.whenFalse, node.whenTrue)
            else (node.whenTrue, node.whenFalse)
          [⟨"Prefer using nullish coalescing operator (\x60??\x60) instead of a ternary expression, as it is simpler to read.",
            node.startPos, node.endPos,
            [[⟨lr.1.getText ++ " ?? " ++ lr.2.getText, ⟨node.startPos, node.width⟩⟩]]⟩]
        else []

def c6A : TsExpr := .atom 1 SK.Identifier "a"

def c6NullLit : TsExpr := .atom 2 SK.NullKeyword "null"

/-- The expression-position `undefined`: an `Identifier` (kind 80) named
`undefined`, as the TypeScript parser produces it. -/
def c6UndefinedExpr : TsExpr := .atom 3 SK.Identifier "undefined"

def c6B : TsExpr := .atom 4 SK.Identifier "b"

/-- `a === null || a === undefined ? b : a`. -/
def c6Ternary : CondExprNode where
  id := 9
  condition := .binary 5 SK.BarBarToken
    (.binary 6 SK.EqualsEqualsEqualsToken c6A c6NullLit "a === null")
    (.binary 7 SK.EqualsEqualsEqualsToken c6A c6UndefinedExpr "a === undefined")
    "a === null || a === undefined"
  whenTrue := c6B
  whenFalse := c6A
  startPos := 0
  endPos := 38
  width := 38

def c6T : TypeSystem where
  flags := fun _ => 0
  symbolName := fun _ => none
  parts := fun _ => []

def c6O : Oracle where
  typeAt := fun _ => 0
  baseConstraint := fun _ => none
  contextualType := fun _ => none
  typeToString := fun _ => ""

/-! ## The prefer-ts-expect-error rule (`src/rules/prefer-ts-expect-error.ts`)

Source text is a list of characters; a comment range carries `pos`, `end`
and its trivia kind (2 = `SingleLineCommentTrivia`,
3 = `MultiLineCommentTrivia`). -/

structure CommentRange where
  pos : Nat
  endPos : Nat
  kind : Nat
deriving DecidableEq, Repr

/-- `ts.SyntaxKind.SingleLineCommentTrivia === comment.kind`. -/
def isLineComment (c : CommentRange) : Bool := c.kind = 2

/-- `sourceFile.text.slice(pos, end)`. -/
def sliceText (text : List Char) (pos endPos : Nat) : List Char :=
  (text.take endPos).drop pos

/-- JS `\s` on the characters relevant to comment markers: space, tab and the
vertical whitespace / line terminators. -/
def jsWhitespace (ch : Char) : Bool :=
  ch = ' ' || ch = '\t' || ch = '\n' || ch = '\r' || ch = '\x0b' || ch = '\x0c'

def tsIgnoreChars : List Char := "@ts-ignore".data

/-- `/^\s*\/?\s*@ts-ignore/.test(l)`.  Since `/` is not whitespace and the
literal starts with `@`, the greedy deterministic reading is equivalent to
the backtracking regex. -/
def matchTsIgnoreSingle (l : List Char) : Bool :=
  tsIgnoreChars.isPrefixOf
    ((if (l.dropWhile jsWhitespace).head? = some '/' then (l.dropWhile jsWhitespace).tail
      else l.dropWhile jsWhitespace).dropWhile jsWhitespace)

/-- `/^\s*(?:\/|\*)*\s*@ts-ignore/.test(l)`, with the equivalent greedy
reading (the literal starts with `@`, which the starred class never
consumes). -/
def matchTsIgnoreMulti (l : List Char) : Bool :=
  tsIgnoreChars.isPrefixOf
    (((l.dropWhile jsWhitespace).dropWhile (fun c => c = '/' || c = '*')).dropWhile
      jsWhitespace)

/-- `.split('\n')` followed by taking the last element: the characters after
the last newline (the whole list when there is none). -/
def lastSplitLine (l : List Char) : List Char :=
  (l.reverse.takeWhile (fun c => c != '\n')).reverse

/-- `getLastCommentLine(comment)`. -/
def getLastCommentLine (text : List Char) (c : CommentRange) : List Char :=
  if isLineComment c then sliceText text c.pos c.endPos
  else lastSplitLine (sliceText text c.pos c.endPos)

/-- `isValidTsIgnorePresent(comment)`; for single-line comments the single-
line regex runs on `line.slice(2)`, past the leading `//`. -/
def isValidTsIgnorePresent (text : List Char) (c : CommentRange) : Bool :=
  let line := getLastCommentLine text c
  if isLineComment c then matchTsIgnoreSingle (line.drop 2)
  else matchTsIgnoreMulti line

/-- JS `hay.indexOf(needle)` as an option: the first index at which `needle`
is a prefix of the remainder of `hay`. -/
def firstIndexOfSub (needle : List Char) : List Char → Option Nat
  | [] => if needle.isPrefixOf ([] : List Char) then some 0 else none
  | c :: rest =>
    if needle.isPrefixOf (c :: rest) then some 0
    else (firstIndexOfSub needle rest).map (· + 1)

/-- The fix for a flagged comment: replace the first `@ts-ignore` inside the
comment's slice (at `comment.pos + indexOf`) with `@ts-expect-error`.  JS's
`indexOf` yields `-1` when absent, making `replacePos = pos - 1`; the rule
only builds the fix after the marker matched, which guarantees presence. -/
def tsExpectErrorFixChanges (text : List Char) (c : CommentRange) : List TextChange :=
  match firstIndexOfSub tsIgnoreChars (sliceText text c.pos c.endPos) with
  | some i => [⟨"@ts-expect-error", ⟨c.pos + i, tsIgnoreChars.length⟩⟩]
  | none => [⟨"@ts-expect-error", ⟨c.pos - 1, tsIgnoreChars.length⟩⟩]

/-- The rule body over a node's leading comment ranges. -/
def tsExpectErrorDiags (text : List Char) (comments : List CommentRange) : List Diag :=
  comments.flatMap (fun c =>
    if isValidTsIgnorePresent text c then
      [⟨"Use \"@ts-expect-error\" to ensure an error is actually being suppressed.",
        c.pos, c.endPos, [tsExpectErrorFixChanges text c]⟩]
    else [])

/-- The host applying one text change: splice `newText` over the span. -/
def applyChange (text : List Char) (tc : TextChange) : List Char :=
  text.take tc.span.start ++ tc.newText.data ++ text.drop (tc.span.start + tc.span.length)

def c10Text : List Char := "// @ts-ignore xx\nlet a = 1".data

/-- The leading single-line comment `// @ts-ignore xx` of `c10Text`. -/
def c10Comment : CommentRange := ⟨0, 16, 2⟩

/-! ## C5: every reported span is well-formed -/

/-- The spec's span invariant for a diagnostic: start ≤ end and both within
the file's byte length. -/
def SpanOk (len : Nat) (d : Diag) : Prop := d.startPos ≤ d.endPos ∧ d.endPos ≤ len

/-- Well-formedness of a switch statement's recorded positions: the spans the
parser produces (statement span containing the discriminant's start and every
clause's span, all within the file). -/
def SwitchWF (len : Nat) (node : SwitchStmt) : Prop :=
  node.startPos ≤ node.exprStart ∧ node.exprStart ≤ node.endPos ∧ node.endPos ≤ len ∧
    ∀ cl ∈ node.clauses,
      node.startPos ≤ cl.startPos ∧ cl.startPos ≤ cl.endPos ∧ cl.endPos ≤ node.endPos

/-- The configuration diagnostic the unnecessary-condition rule emits when
`strictNullChecks` is off. -/
def condConfigDiag : Diag :=
  ⟨"This rule requires the \x60strictNullChecks\x60 compiler option to be turned on to function correctly.",
    0, 0, []⟩

/-! ## Theorems -/

/-- The scan loop can only ever produce the node it was given. -/
theorem tokenScanLoop_eq_self (node : RawNode) (condition : RawNode → Bool) :
    ∀ count, tokenScanLoop node condition count = none ∨
      tokenScanLoop node condition count = some node := by
  intro count
  induction count with
  | zero => exact Or.inl rfl
  | succ n ih =>
    by_cases h : condition node = true
    · exact Or.inr (by simp [tokenScanLoop, h])
    · simpa [tokenScanLoop, h] using ih

/-- C1: the claim says `getTokenAfter` returns the first sibling token after
the node satisfying the condition and `getTokenBefore` the first one before
it.  The code instead tests and returns the function's own `node` argument —
the loop index `i` is never read — so each call returns either `undefined` or
the node itself, never a sibling.  Concretely, for the type node of
`<number>(3 + 5)` whose siblings are `<` and `>`: `getTokenAfter` with the
`GreaterThanToken` condition yields `undefined` although the sibling `>`
satisfies it (so the fix construction's `nullThrows` throws), and
`getTokenBefore` with an always-true condition yields the node itself instead
of the sibling `<`.  The repository's own `test.js` implements the intended
`children[children.indexOf(node) ± 1]` lookup. -/
theorem C1_getTokenAfter_never_returns_sibling :
    (∀ (n : RawNode) (cs : List RawNode) (cond : RawNode → Bool),
      getTokenBefore n cs cond = none ∨ getTokenBefore n cs cond = some n) ∧
    (∀ (n : RawNode) (cs : List RawNode) (cond : RawNode → Bool),
      getTokenAfter n cs cond = none ∨ getTokenAfter n cs cond = some n) ∧
    getTokenAfter typeNodeNumber [tokLessThan, typeNodeNumber, tokGreaterThan]
      isGreaterThanTokenCond = none ∧
    isGreaterThanTokenCond tokGreaterThan = true ∧
    getTokenBefore typeNodeNumber [tokLessThan, typeNodeNumber, tokGreaterThan]
      (fun _ => true) = some typeNodeNumber ∧
    typeNodeNumber ≠ tokLessThan := by
  refine ⟨fun n cs cond => tokenScanLoop_eq_self n cond _,
    fun n cs cond => tokenScanLoop_eq_self n cond _, ?_, ?_, ?_, ?_⟩ <;> decide

theorem getSwitchMetadata_containsNonLiteralType (T : TypeSystem) (o : Oracle)
    (node : SwitchStmt) :
    (getSwitchMetadata T o node).containsNonLiteralType =
      doesTypeContainNonLiteralType T (getConstrainedTypeAtLocation o node.exprId) := rfl

theorem getSwitchMetadata_defaultCase (T : TypeSystem) (o : Oracle) (node : SwitchStmt) :
    (getSwitchMetadata T o node).defaultCase =
      node.clauses.find? (fun c => c.isDefault) := rfl

/-- C2: when a switch statement's metadata has missing literal branches and
no `default` clause, `checkSwitchExhaustive` reports exactly one
non-exhaustiveness diagnostic spanning the switch, whose single candidate fix
is `fixSwitch` on the missing branches.  That fix is one zero-length
insertion at the start of the last existing case — so the synthesized
branches land before it — containing one indented branch per missing type;
when no cases exist it instead replaces the case block's brace span, making
the branches its sole content.  Every synthesized branch has the form
`case <value>: { throw new Error('Not implemented yet: <value> case') }`.
(`hsym` is the compiler invariant that unique-symbol types carry their
symbol, which the source relies on via `missingBranchName!`.) -/
theorem C2_checkSwitchExhaustive_missing_branches
    (T : TypeSystem) (o : Oracle) (sf : SourceFileModel)
    (isIdentStart isIdentPart : Char → Bool) (node : SwitchStmt)
    (hmiss : (getSwitchMetadata T o node).missingLiteralBranchTypes ≠ [])
    (hdef : (getSwitchMetadata T o node).defaultCase = none)
    (hsym : ∀ t ∈ (getSwitchMetadata T o node).missingLiteralBranchTypes,
      tsIsTypeFlagSet T t TF.ESSymbolLike = true → (T.symbolName t).isSome = true) :
    checkSwitchExhaustive T o sf isIdentStart isIdentPart node (getSwitchMetadata T o node)
      = [⟨"Switch is not exhaustive. Cases not matched: "
            ++ String.intercalate " | "
              ((getSwitchMetadata T o node).missingLiteralBranchTypes.map (fun missingType =>
                if tsIsTypeFlagSet T missingType TF.ESSymbolLike then
                  "typeof " ++ ((T.symbolName missingType).getD "undefined")
                else o.typeToString missingType)),
          node.startPos, node.endPos,
          [fixSwitch T o sf isIdentStart isIdentPart node
            ((getSwitchMetadata T o node).missingLiteralBranchTypes.map some)
            (getSwitchMetadata T o node).symbolName]⟩] ∧
    (∀ lc, node.clauses.getLast? = some lc →
      fixSwitch T o sf isIdentStart isIdentPart node
          ((getSwitchMetadata T o node).missingLiteralBranchTypes.map some)
          (getSwitchMetadata T o node).symbolName
        = [⟨"\n" ++ String.intercalate "\n"
              ((((getSwitchMetadata T o node).missingLiteralBranchTypes.map some).map
                  (missingCaseText T o isIdentStart isIdentPart
                    (getSwitchMetadata T o node).symbolName)).map
                (fun code => spacesIndent (sf.column lc.startPos) ++ code)),
            ⟨lc.startPos, 0⟩⟩]) ∧
    (node.clauses.getLast? = none →
      ∃ body, fixSwitch T o sf isIdentStart isIdentPart node
          ((getSwitchMetadata T o node).missingLiteralBranchTypes.map some)
          (getSwitchMetadata T o node).symbolName
        = [⟨body, ⟨node.openBraceStart, node.closeBraceEnd - node.openBraceStart⟩⟩]) ∧
    (∀ t ∈ (getSwitchMetadata T o node).missingLiteralBranchTypes,
      ∃ caseTest, missingCaseText T o isIdentStart isIdentPart
          (getSwitchMetadata T o node).symbolName (some t) = caseTemplate caseTest) := by
  refine ⟨?_, ?_, ?_, ?_⟩
  · unfold checkSwitchExhaustive
    rw [if_pos ⟨List.length_pos.mpr hmiss, hdef⟩]
  · intro lc h
    unfold fixSwitch
    rw [h]
  · intro h
    unfold fixSwitch
    rw [h]
    exact ⟨_, rfl⟩
  · intro t _
    exact ⟨_, rfl⟩

/-- Witness for C2: on the concrete switch missing `'b'`, the rule reports
one diagnostic and its fix inserts the `case "b": { throw ... }` branch
before the last existing case (a zero-length change at its start). -/
theorem C2_witness :
    checkSwitchExhaustive c2T c2O c2Sf charTrue charTrue c2Node
        (getSwitchMetadata c2T c2O c2Node)
      = [⟨"Switch is not exhaustive. Cases not matched: \"b\"", 0, 40,
          [[⟨"\n  case \"b\": \x7b throw new Error(\x27Not implemented yet: \"b\" case\x27) \x7d",
            ⟨20, 0⟩⟩]]⟩] := by
  have h := (C2_checkSwitchExhaustive_missing_branches c2T c2O c2Sf charTrue charTrue c2Node
    (by decide) (by decide) (by decide)).1
  exact h.trans (by decide)

/-- C7: with `allowDefaultCaseForExhaustiveSwitch` disabled, the switch rule
flags the `default` clause as unnecessary exactly when no literal branches
are missing, a `default` clause is present, and
`doesTypeContainNonLiteralType` is false of the discriminant's constrained
type; any non-literal constituent of the discriminant type therefore
suppresses the report.  The report, when emitted, spans the default clause. -/
theorem C7_unnecessary_default_iff (T : TypeSystem) (o : Oracle) (node : SwitchStmt) :
    ((checkSwitchUnnecessaryDefaultCase false (getSwitchMetadata T o node) ≠ []) ↔
      ((getSwitchMetadata T o node).missingLiteralBranchTypes = [] ∧
        (getSwitchMetadata T o node).defaultCase.isSome = true ∧
        doesTypeContainNonLiteralType T (getConstrainedTypeAtLocation o node.exprId)
          = false)) ∧
    (∀ dc, (getSwitchMetadata T o node).defaultCase = some dc →
      checkSwitchUnnecessaryDefaultCase false (getSwitchMetadata T o node) = [] ∨
      checkSwitchUnnecessaryDefaultCase false (getSwitchMetadata T o node)
        = [⟨"The switch statement is exhaustive, so the default case is unnecessary.",
            dc.startPos, dc.endPos, []⟩]) := by
  have hc : doesTypeContainNonLiteralType T (getConstrainedTypeAtLocation o node.exprId)
      = (getSwitchMetadata T o node).containsNonLiteralType := rfl
  rw [hc]
  rcases getSwitchMetadata T o node with ⟨sym, dc, missing, cnlt⟩
  unfold checkSwitchUnnecessaryDefaultCase
  constructor
  · cases dc with
    | none => simp
    | some c =>
      by_cases h1 : missing.length = 0 ∧ ¬ cnlt = true
      · rw [if_neg (by simp)]
        simp only [if_pos h1]
        simp only [List.length_eq_zero] at h1
        simp [h1.1, h1.2]
      · rw [if_neg (by simp)]
        simp only [if_neg h1]
        constructor
        · intro h; exact absurd rfl h
        · rintro ⟨hm, _, hcn⟩
          exact absurd ⟨by simp [hm], by simp [hcn]⟩ h1
  · intro c hdc
    subst hdc
    by_cases h1 : missing.length = 0 ∧ ¬ cnlt = true
    · right
      rw [if_neg (by simp)]
      simp only [if_pos h1]
    · left
      rw [if_neg (by simp)]
      simp only [if_neg h1]

/-- Witness for C7: on the concrete exhaustive switch with a default clause,
the rule (with the option disabled) does flag the default clause. -/
theorem C7_witness :
    checkSwitchUnnecessaryDefaultCase false (getSwitchMetadata c7T c7O c7Node) ≠ [] :=
  (C7_unnecessary_default_iff c7T c7O c7Node).1.mpr (by decide)

/-- C3 (amended): `isTypeUnchanged` returns true when the two types are the
same object, and otherwise only when `exactOptionalPropertyTypes` is enabled,
*both* types themselves carry the `Undefined` type flag, and their
non-`undefined` union parts agree as identity-sets of equal length.  A union
type that merely has an `undefined` constituent does not carry the
`Undefined` flag itself, so such unions never satisfy the exception; apart
from it the comparison is pure object identity, never structural. -/
theorem C3_isTypeUnchanged_characterization (eopt : Bool) (T : TypeSystem)
    (uncast cast : TyId) :
    isTypeUnchanged eopt T uncast cast = true ↔
      (uncast = cast ∨
        (eopt = true ∧
          tsIsTypeFlagSet T uncast TF.Undefined = true ∧
          tsIsTypeFlagSet T cast TF.Undefined = true ∧
          (nonUndefinedParts T uncast).length = (nonUndefinedParts T cast).length ∧
          ∀ part ∈ nonUndefinedParts T cast, part ∈ nonUndefinedParts T uncast)) := by
  unfold isTypeUnchanged
  by_cases h1 : uncast = cast
  · simp [h1]
  · rw [if_neg h1]
    by_cases h2 : (tsIsTypeFlagSet T uncast TF.Undefined
        && tsIsTypeFlagSet T cast TF.Undefined && eopt) = true
    · rw [if_pos h2]
      simp only [Bool.and_eq_true] at h2
      obtain ⟨⟨hu, hcst⟩, he⟩ := h2
      by_cases h3 : (nonUndefinedParts T uncast).length = (nonUndefinedParts T cast).length
      · rw [if_neg (fun hne => hne h3)]
        simp [List.all_eq_true, List.contains, List.elem_iff, h1, hu, hcst, he, h3]
      · rw [if_pos h3]
        simp [h1, h3]
    · rw [if_neg h2]
      simp only [Bool.and_eq_true] at h2
      constructor
      · intro h; exact absurd h (by simp)
      · rintro (h | ⟨he, hu, hcst, _⟩)
        · exact absurd h h1
        · exact absurd ⟨⟨hu, hcst⟩, he⟩ h2

/-- C3 counterexample: with `exactOptionalPropertyTypes` enabled, the types
`string | undefined` (3) and `string` (1) differ only by the presence of an
`undefined` union constituent — removing the `undefined` constituents of 3
leaves exactly the constituents of 1 — yet `isTypeUnchanged` returns
`false`, because the exception branch tests the union object's own flag
bitset for `Undefined`, which a union never carries.  The claim's exception
therefore never applies to such unions. -/
theorem C3_counterexample :
    (nonUndefinedParts c3T 3 = unionTypeParts c3T 1) ∧
    (2 ∈ unionTypeParts c3T 3 ∧ tsIsTypeFlagSet c3T 2 TF.Undefined = true) ∧
    (3 : TyId) ≠ 1 ∧
    isTypeUnchanged true c3T 3 1 = false := by decide

/-- C4: the claim says the rule reports a nullable `expr!` exactly when the
contextual type includes every nullability class present in the operand's
type.  Concretely the operand's constrained type is `string | undefined`
(nullable; `undefined` is present as a union constituent) and the contextual
type is plain `string`, which includes no nullish class — the claim says no
report.  Yet the rule reports (with the operand-end..assertion-end deletion
fix): `tsutils.isTypeFlagSet(type, Undefined/Null/Void)` reads the union
object's own flag bitset, which never carries the nullish flags, so all
three validity checks pass vacuously.  This contradicts the code's own
comment ("assigning `string | null | undefined` to `string | undefined` is
invalid") and the fix produces non-compiling code. -/
theorem C4_nullable_contextual_report_bug :
    isNullableType c4T (getConstrainedTypeAtLocation c4O c4Node.exprId) = true ∧
    (2 ∈ unionTypeParts c4T (getConstrainedTypeAtLocation c4O c4Node.exprId) ∧
      isFlagSet (c4T.flags 2) TF.Undefined = true) ∧
    c4O.contextualType c4Node.id = some 1 ∧
    (unionTypeParts c4T 1).all
      (fun part => !(isFlagSet (c4T.flags part) (TF.Undefined ||| TF.Null ||| TF.Void)))
      = true ∧
    nonNullDiags c4T c4O (fun _ => false) c4Node
      = [⟨"This assertion is unnecessary since the receiver accepts the original type of the expression.",
          50, 56, [[⟨"", ⟨55, 1⟩⟩]]⟩] := by decide

/-- C9: the `cb` dispatch can never select the
`ts.isCallExpression(node) && node.questionDotToken` branch, because every
call expression is already captured by the earlier plain
`ts.isCallExpression(node)` branch; `checkOptionalCallExpression` is invoked
only from that dead branch, so the rule never reports an unnecessary
optional chain for an optional call such as `f?.()`. -/
theorem C9_optional_call_branch_unreachable :
    (∀ n : NodeHead, condRuleDispatch n ≠ CbBranch.optionalCallB) ∧
    (∀ n : NodeHead, n.kind = SK.CallExpression → condRuleDispatch n = CbBranch.callB) := by
  constructor
  · intro n h
    unfold condRuleDispatch at h
    split_ifs at h with h1 h2 h3 h4 h5 h6 h7 h8 h9 <;> simp_all
  · intro n h
    unfold condRuleDispatch
    rw [if_neg (by rw [h]; decide), if_pos h]

/-- Witness for C9: an optional call node (`kind = CallExpression`, question
dot present) is routed to the plain call branch, not the optional-call
branch. -/
theorem C9_witness :
    condRuleDispatch ⟨SK.CallExpression, true⟩ = CbBranch.callB ∧
    condRuleDispatch ⟨SK.CallExpression, true⟩ ≠ CbBranch.optionalCallB :=
  ⟨C9_optional_call_branch_unreachable.2 ⟨SK.CallExpression, true⟩ rfl,
   C9_optional_call_branch_unreachable.1 ⟨SK.CallExpression, true⟩⟩

/-- C8: a binary comparison using one of `< > <= >= == === != !==` whose
operands' constrained types are both literal per the rule's `isLiteral`
(string/number/boolean literal, `undefined`, `null` or `void`) is routed by
the binary sub-dispatch to
`checkIfBinaryExpressionIsNecessaryConditional`, which reports exactly the
"both sides of the expression are literal values" diagnostic spanning the
comparison. -/
theorem C8_literal_comparison_reported (T : TypeSystem) (o : Oracle)
    (isStrictNullChecks : Bool) (node : BinExpr)
    (hop : BOOL_OPERATORS.contains node.opKind = true)
    (hl : isLiteral T (getConstrainedTypeAtLocation o node.leftId) = true)
    (hr : isLiteral T (getConstrainedTypeAtLocation o node.rightId) = true) :
    condRuleBinaryDispatch node.opKind = BinOpBranch.comparisonB ∧
    checkIfBinaryExpressionIsNecessaryConditional T o isStrictNullChecks node
      = [⟨"Unnecessary conditional, both sides of the expression are literal values.",
          node.startPos, node.endPos, []⟩] := by
  constructor
  · have hmem : node.opKind ∈ BOOL_OPERATORS := by
      simpa [List.contains, List.elem_iff] using hop
    simp only [BOOL_OPERATORS, List.mem_cons, List.not_mem_nil, or_false] at hmem
    rcases hmem with h | h | h | h | h | h | h | h <;> (rw [h]; decide)
  · unfold checkIfBinaryExpressionIsNecessaryConditional
    rw [hop]
    simp [hl, hr]

/-- Witness for C8: `1 === 1` is reported with the both-sides-literal
message. -/
theorem C8_witness :
    checkIfBinaryExpressionIsNecessaryConditional c8T c8O true c8Node
      = [⟨"Unnecessary conditional, both sides of the expression are literal values.",
          4, 11, []⟩] :=
  (C8_literal_comparison_reported c8T c8O true c8Node (by decide) (by decide) (by decide)).2

/-- C6: the claim says `a === null || a === undefined ? b : a` is flagged
and fixed to `a ?? b`.  The code never flags it: the expression-position
`undefined` is an `Identifier` (kind 80) — kind 157 (`UndefinedKeyword`)
occurs only in type positions — while `isUndefinedIdentifier` tests
`i.kind === 157`, so the test-node loop reaches its final `else { return }`
at the `undefined` operand and the ternary is abandoned before any report.
The operator detection itself succeeds (`===` over `||`), so the loop is
reached; the report is unreachable for every ternary that strictly tests
`undefined`, which also voids the claim's fixability condition for
single-`undefined` checks. -/
theorem C6_dual_nullish_ternary_not_flagged :
    c6UndefinedExpr.kind = SK.Identifier ∧
    isUndefinedIdentifier c6UndefinedExpr = false ∧
    ternaryOperatorAndNodes c6Ternary.condition
      = (some SK.EqualsEqualsEqualsToken, [c6A, c6NullLit, c6A, c6UndefinedExpr]) ∧
    scanTestNodes SK.EqualsEqualsEqualsToken c6B c6A [c6A, c6NullLit, c6A, c6UndefinedExpr]
      (none, false, false) = none ∧
    ternaryCheck c6T c6O false c6Ternary = [] := by decide

theorem firstIndexOfSub_some_prefix {needle hay : List Char} {i : Nat}
    (h : firstIndexOfSub needle hay = some i) :
    needle.isPrefixOf (hay.drop i) = true := by
  induction hay generalizing i with
  | nil =>
    unfold firstIndexOfSub at h
    split_ifs at h with hp
    obtain rfl : (0 : Nat) = i := Option.some.inj h
    exact hp
  | cons c rest ih =>
    unfold firstIndexOfSub at h
    split_ifs at h with hp
    · obtain rfl : (0 : Nat) = i := Option.some.inj h
      exact hp
    · cases hj : firstIndexOfSub needle rest with
      | none => rw [hj] at h; simp at h
      | some j =>
        rw [hj] at h
        simp only [Option.map_some'] at h
        obtain rfl : j + 1 = i := Option.some.inj h
        simpa using ih hj

theorem firstIndexOfSub_min {needle hay : List Char} {i : Nat}
    (h : firstIndexOfSub needle hay = some i) :
    ∀ j, j < i → needle.isPrefixOf (hay.drop j) = false := by
  induction hay generalizing i with
  | nil =>
    unfold firstIndexOfSub at h
    split_ifs at h with hp
    obtain rfl : (0 : Nat) = i := Option.some.inj h
    intro j hj
    omega
  | cons c rest ih =>
    intro j hj
    unfold firstIndexOfSub at h
    split_ifs at h with hp
    · obtain rfl : (0 : Nat) = i := Option.some.inj h
      omega
    · cases hk : firstIndexOfSub needle rest with
      | none => rw [hk] at h; simp at h
      | some k =>
        rw [hk] at h
        simp only [Option.map_some'] at h
        obtain rfl : k + 1 = i := Option.some.inj h
        cases j with
        | zero => exact Bool.eq_false_iff.mpr hp
        | succ j' => simpa using ih hk j' (by omega)

theorem firstIndexOfSub_some_le {needle hay : List Char} {i : Nat}
    (h : firstIndexOfSub needle hay = some i) :
    i + needle.length ≤ hay.length := by
  induction hay generalizing i with
  | nil =>
    unfold firstIndexOfSub at h
    split_ifs at h with hp
    obtain rfl : (0 : Nat) = i := Option.some.inj h
    have hl := (List.isPrefixOf_iff_prefix.mp hp).length_le
    simp only [List.length_nil] at hl ⊢
    omega
  | cons c rest ih =>
    unfold firstIndexOfSub at h
    split_ifs at h with hp
    · obtain rfl : (0 : Nat) = i := Option.some.inj h
      simpa using (List.isPrefixOf_iff_prefix.mp hp).length_le
    · cases hk : firstIndexOfSub needle rest with
      | none => rw [hk] at h; simp at h
      | some k =>
        rw [hk] at h
        simp only [Option.map_some'] at h
        obtain rfl : k + 1 = i := Option.some.inj h
        have := ih hk
        simp only [List.length_cons]
        omega

theorem firstIndexOfSub_isSome_of_suffix_prefix {needle s hay : List Char}
    (hs : s <:+ hay) (hp : needle.isPrefixOf s = true) :
    (firstIndexOfSub needle hay).isSome = true := by
  induction hay with
  | nil =>
    obtain rfl : s = [] := List.suffix_nil.mp hs
    unfold firstIndexOfSub
    rw [if_pos hp]
    rfl
  | cons c rest ih =>
    unfold firstIndexOfSub
    split_ifs with hpre
    · rfl
    · rcases List.suffix_cons_iff.mp hs with h1 | h1
      · exact absurd (h1 ▸ hp) hpre
      · simpa using ih h1

theorem lastSplitLine_suffix (l : List Char) : lastSplitLine l <:+ l := by
  unfold lastSplitLine
  refine ⟨(l.reverse.dropWhile (fun c => c != '\n')).reverse, ?_⟩
  conv_rhs =>
    rw [← l.reverse_reverse,
      ← List.takeWhile_append_dropWhile (p := fun c => c != '\n') (l := l.reverse)]
  rw [List.reverse_append]

theorem dropWhile_suffix' (p : Char → Bool) (l : List Char) : l.dropWhile p <:+ l :=
  ⟨l.takeWhile p, List.takeWhile_append_dropWhile p l⟩

/-- A successful `isValidTsIgnorePresent` guarantees `@ts-ignore` occurs in
the comment's slice, so the fix's `indexOf` finds it. -/
theorem isValid_firstIndexOfSub_isSome {text : List Char} {c : CommentRange}
    (h : isValidTsIgnorePresent text c = true) :
    (firstIndexOfSub tsIgnoreChars (sliceText text c.pos c.endPos)).isSome = true := by
  unfold isValidTsIgnorePresent getLastCommentLine at h
  split_ifs at h with hline
  · unfold matchTsIgnoreSingle at h
    refine firstIndexOfSub_isSome_of_suffix_prefix ?_ h
    have base : (sliceText text c.pos c.endPos).drop 2 <:+ sliceText text c.pos c.endPos :=
      List.drop_suffix _ _
    have h1 := dropWhile_suffix' jsWhitespace ((sliceText text c.pos c.endPos).drop 2)
    split_ifs with hhead
    · exact (dropWhile_suffix' jsWhitespace _).trans
        (((List.tail_suffix _).trans h1).trans base)
    · exact (dropWhile_suffix' jsWhitespace _).trans (h1.trans base)
  · unfold matchTsIgnoreMulti at h
    refine firstIndexOfSub_isSome_of_suffix_prefix ?_ h
    have base : lastSplitLine (sliceText text c.pos c.endPos)
        <:+ sliceText text c.pos c.endPos := lastSplitLine_suffix _
    exact (dropWhile_suffix' jsWhitespace _).trans
      ((dropWhile_suffix' (fun ch => ch = '/' || ch = '*') _).trans
        ((dropWhile_suffix' jsWhitespace _).trans base))

theorem sliceText_eq (text : List Char) (a b : Nat) :
    sliceText text a b = (text.drop a).take (b - a) := by
  unfold sliceText
  rw [List.drop_take]

/-- C10: when the suppression-comment rule's fix for a flagged `@ts-ignore`
comment is applied, the only bytes that change are the ten characters of the
first occurrence of `@ts-ignore` within that comment, replaced by
`@ts-expect-error`: the fix is a single change over exactly that span, the
replaced slice is exactly `@ts-ignore`, no earlier position inside the
comment matches, and the spliced result keeps every byte before the span and
every byte after it (the suffix, shifted by the six-byte growth) unchanged. -/
theorem C10_fix_replaces_first_ts_ignore (text : List Char) (c : CommentRange)
    (hpe : c.pos ≤ c.endPos) (hel : c.endPos ≤ text.length)
    (hmatch : isValidTsIgnorePresent text c = true) :
    ∃ i,
      firstIndexOfSub tsIgnoreChars (sliceText text c.pos c.endPos) = some i ∧
      tsExpectErrorFixChanges text c
        = [⟨"@ts-expect-error", ⟨c.pos + i, tsIgnoreChars.length⟩⟩] ∧
      c.pos + i + tsIgnoreChars.length ≤ c.endPos ∧
      sliceText text (c.pos + i) (c.pos + i + tsIgnoreChars.length) = tsIgnoreChars ∧
      (∀ j, j < i →
        tsIgnoreChars.isPrefixOf ((sliceText text c.pos c.endPos).drop j) = false) ∧
      applyChange text ⟨"@ts-expect-error", ⟨c.pos + i, tsIgnoreChars.length⟩⟩
        = text.take (c.pos + i) ++ "@ts-expect-error".data
            ++ text.drop (c.pos + i + tsIgnoreChars.length) ∧
      (applyChange text
          ⟨"@ts-expect-error", ⟨c.pos + i, tsIgnoreChars.length⟩⟩).take (c.pos + i)
        = text.take (c.pos + i) ∧
      (applyChange text ⟨"@ts-expect-error", ⟨c.pos + i, tsIgnoreChars.length⟩⟩).drop
          (c.pos + i + "@ts-expect-error".length)
        = text.drop (c.pos + i + tsIgnoreChars.length) := by
  obtain ⟨i, hi⟩ := Option.isSome_iff_exists.mp (isValid_firstIndexOfSub_isSome hmatch)
  have hlen_slice : (sliceText text c.pos c.endPos).length = c.endPos - c.pos := by
    rw [sliceText_eq, List.length_take, List.length_drop]
    omega
  have hbound : i + tsIgnoreChars.length ≤ c.endPos - c.pos := by
    have := firstIndexOfSub_some_le hi
    omega
  have hple : c.pos + i + tsIgnoreChars.length ≤ c.endPos := by omega
  have hplen : c.pos + i + tsIgnoreChars.length ≤ text.length := by omega
  have hprefix := firstIndexOfSub_some_prefix hi
  have hdropSlice : (sliceText text c.pos c.endPos).drop i
      = (text.drop (c.pos + i)).take (c.endPos - (c.pos + i)) := by
    rw [sliceText_eq, List.drop_take, List.drop_drop]
    congr 1
    omega
  have hslice : sliceText text (c.pos + i) (c.pos + i + tsIgnoreChars.length)
      = tsIgnoreChars := by
    have h1 : tsIgnoreChars
        = ((sliceText text c.pos c.endPos).drop i).take tsIgnoreChars.length :=
      List.prefix_iff_eq_take.mp (List.isPrefixOf_iff_prefix.mp hprefix)
    set L := tsIgnoreChars.length with hL
    rw [sliceText_eq, h1, hdropSlice, List.take_take]
    congr 1
    omega
  have htakeLen : (text.take (c.pos + i)).length = c.pos + i := by
    rw [List.length_take]
    omega
  refine ⟨i, hi, ?_, hple, hslice, fun j hj => firstIndexOfSub_min hi j hj, rfl, ?_, ?_⟩
  · unfold tsExpectErrorFixChanges
    rw [hi]
  · unfold applyChange
    dsimp only
    rw [List.append_assoc]
    exact List.take_left' htakeLen
  · unfold applyChange
    dsimp only
    exact List.drop_left' (by rw [List.length_append, htakeLen]; rfl)

/-- Witness for C10: on `// @ts-ignore xx`, the fix is the single change
replacing exactly offsets 3..13 — whose characters are precisely
`@ts-ignore` — with `@ts-expect-error`. -/
theorem C10_witness :
    tsExpectErrorFixChanges c10Text c10Comment = [⟨"@ts-expect-error", ⟨3, 10⟩⟩] ∧
    sliceText c10Text 3 13 = tsIgnoreChars := by
  obtain ⟨i, hi, hfix, hb, hslice, hmin, happ, htake, hdrop⟩ :=
    C10_fix_replaces_first_ts_ignore c10Text c10Comment (by decide) (by decide) (by decide)
  have h3 : firstIndexOfSub tsIgnoreChars
      (sliceText c10Text c10Comment.pos c10Comment.endPos) = some 3 := by decide
  rw [h3] at hi
  obtain rfl : (3 : Nat) = i := Option.some.inj hi
  refine ⟨hfix.trans (by decide), ?_⟩
  exact (by decide : sliceText c10Text 3 13
    = sliceText c10Text (c10Comment.pos + 3) (c10Comment.pos + 3 + tsIgnoreChars.length)).trans
    hslice

theorem switchRuleDiags_spanOk {len : Nat} (allowD requireD : Bool)
    (T : TypeSystem) (o : Oracle) (sf : SourceFileModel) (ids idp : Char → Bool)
    (node : SwitchStmt) (hwf : SwitchWF len node) :
    ∀ d ∈ switchRuleDiags allowD requireD T o sf ids idp node, SpanOk len d := by
  obtain ⟨h1, h2, h3, hcl⟩ := hwf
  intro d hd
  simp only [switchRuleDiags, List.mem_append] at hd
  rcases hd with (hd | hd) | hd
  · simp only [checkSwitchExhaustive] at hd
    split_ifs at hd <;>
      first
        | (simp only [List.mem_singleton] at hd; subst hd; exact ⟨le_trans h1 h2, h3⟩)
        | simp at hd
  · simp only [checkSwitchUnnecessaryDefaultCase] at hd
    cases hdc : (getSwitchMetadata T o node).defaultCase with
    | none =>
      rw [hdc] at hd
      dsimp only at hd
      split_ifs at hd <;> simp at hd
    | some dc =>
      rw [hdc] at hd
      dsimp only at hd
      have hmem : dc ∈ node.clauses := by
        rw [getSwitchMetadata_defaultCase] at hdc
        exact List.mem_of_find?_eq_some hdc
      obtain ⟨hb1, hb2, hb3⟩ := hcl dc hmem
      split_ifs at hd <;>
        first
          | (simp only [List.mem_singleton] at hd; subst hd; exact ⟨hb2, le_trans hb3 h3⟩)
          | simp at hd
  · simp only [checkSwitchNoUnionDefaultCase] at hd
    split_ifs at hd <;>
      first
        | (simp only [List.mem_singleton] at hd; subst hd; exact ⟨h2, h3⟩)
        | simp at hd

theorem condRuleConfigDiags_spanOk {len : Nat} (s a : Bool) :
    ∀ d ∈ condRuleConfigDiags s a, SpanOk len d := by
  intro d hd
  simp only [condRuleConfigDiags] at hd
  split_ifs at hd with h
  · simp only [List.mem_singleton] at hd
    subst hd
    exact ⟨Nat.le_refl 0, Nat.zero_le len⟩
  · simp at hd

theorem checkIfBinary_spanOk {len : Nat} (T : TypeSystem) (o : Oracle) (strict : Bool)
    (node : BinExpr) (h1 : node.startPos ≤ node.endPos) (h2 : node.endPos ≤ len) :
    ∀ d ∈ checkIfBinaryExpressionIsNecessaryConditional T o strict node, SpanOk len d := by
  intro d hd
  simp only [checkIfBinaryExpressionIsNecessaryConditional] at hd
  split_ifs at hd <;>
    first
      | (simp only [List.mem_singleton] at hd; subst hd; exact ⟨h1, h2⟩)
      | simp at hd

theorem nonNullDiags_spanOk {len : Nat} (T : TypeSystem) (o : Oracle)
    (pu : Nat → Bool) (node : NonNullNode)
    (h1 : node.startPos ≤ node.endPos) (h2 : node.endPos ≤ len) :
    ∀ d ∈ nonNullDiags T o pu node, SpanOk len d := by
  intro d hd
  simp only [nonNullDiags] at hd
  cases hctx : o.contextualType node.id with
  | none =>
    rw [hctx] at hd
    dsimp only at hd
    split_ifs at hd <;>
      first
        | (simp only [List.mem_singleton] at hd; subst hd; exact ⟨h1, h2⟩)
        | simp at hd
  | some ctx =>
    rw [hctx] at hd
    dsimp only at hd
    split_ifs at hd <;>
      first
        | (simp only [List.mem_singleton] at hd; subst hd; exact ⟨h1, h2⟩)
        | simp at hd

theorem ternaryCheck_spanOk {len : Nat} (T : TypeSystem) (o : Oracle)
    (ignoreTernaryTests : Bool) (node : CondExprNode)
    (h1 : node.startPos ≤ node.endPos) (h2 : node.endPos ≤ len) :
    ∀ d ∈ ternaryCheck T o ignoreTernaryTests node, SpanOk len d := by
  intro d hd
  simp only [ternaryCheck] at hd
  split_ifs at hd with hig
  · simp at hd
  · rcases hop : ternaryOperatorAndNodes node.condition with ⟨op?, nodes⟩
    rw [hop] at hd
    cases op? with
    | none => simp at hd
    | some op =>
      dsimp only at hd
      rcases hsc : scanTestNodes op node.whenTrue node.whenFalse nodes
          (none, false, false) with _ | ⟨id?, hU, hN⟩
      · rw [hsc] at hd; simp at hd
      · rw [hsc] at hd
        cases id? with
        | none => simp at hd
        | some ident =>
          dsimp only at hd
          split_ifs at hd with hf hlr
          · simp only [List.mem_singleton] at hd; subst hd; exact ⟨h1, h2⟩
          · simp only [List.mem_singleton] at hd; subst hd; exact ⟨h1, h2⟩
          · simp at hd

theorem tsExpectErrorDiags_spanOk {len : Nat} (text : List Char)
    (comments : List CommentRange)
    (hc : ∀ cr ∈ comments, cr.pos ≤ cr.endPos ∧ cr.endPos ≤ len) :
    ∀ d ∈ tsExpectErrorDiags text comments, SpanOk len d := by
  intro d hd
  simp only [tsExpectErrorDiags, List.mem_flatMap] at hd
  obtain ⟨cr, hcr, hdm⟩ := hd
  split_ifs at hdm with hv
  · simp only [List.mem_singleton] at hdm
    subst hdm
    exact hc cr hcr
  · simp at hdm

/-- C5: every diagnostic produced by the embedded rule modules — the switch
rule's three checks, the unnecessary-condition rule's configuration
diagnostic and comparison check, the non-null-assertion handler, the
nullish-coalescing ternary handler and the suppression-comment rule —
satisfies start ≤ end with both ends within the file's byte length, assuming
only that the visited nodes' and comment ranges' recorded positions lie
within the file (the zero-span configuration diagnostic at offset 0
included). -/
theorem C5_every_reported_span_wellformed (len : Nat)
    (allowD requireD strict allowNoStrict ignoreTernary : Bool)
    (T : TypeSystem) (o : Oracle) (sf : SourceFileModel)
    (ids idp : Char → Bool) (pu : Nat → Bool)
    (sw : SwitchStmt) (bin : BinExpr) (nn : NonNullNode) (tern : CondExprNode)
    (text : List Char) (comments : List CommentRange)
    (hsw : SwitchWF len sw)
    (hbin : bin.startPos ≤ bin.endPos ∧ bin.endPos ≤ len)
    (hnn : nn.startPos ≤ nn.endPos ∧ nn.endPos ≤ len)
    (htern : tern.startPos ≤ tern.endPos ∧ tern.endPos ≤ len)
    (hc : ∀ cr ∈ comments, cr.pos ≤ cr.endPos ∧ cr.endPos ≤ len) :
    ∀ d ∈ switchRuleDiags allowD requireD T o sf ids idp sw
        ++ condRuleConfigDiags strict allowNoStrict
        ++ checkIfBinaryExpressionIsNecessaryConditional T o strict bin
        ++ nonNullDiags T o pu nn
        ++ ternaryCheck T o ignoreTernary tern
        ++ tsExpectErrorDiags text comments,
      SpanOk len d := by
  intro d hd
  simp only [List.mem_append] at hd
  rcases hd with ((((hd | hd) | hd) | hd) | hd) | hd
  · exact switchRuleDiags_spanOk allowD requireD T o sf ids idp sw hsw d hd
  · exact condRuleConfigDiags_spanOk strict allowNoStrict d hd
  · exact checkIfBinary_spanOk T o strict bin hbin.1 hbin.2 d hd
  · exact nonNullDiags_spanOk T o pu nn hnn.1 hnn.2 d hd
  · exact ternaryCheck_spanOk T o ignoreTernary tern htern.1 htern.2 d hd
  · exact tsExpectErrorDiags_spanOk text comments hc d hd

/-- Witness for C5: at a concrete instantiation of every rule (a 100-byte
file, the `c7` switch, the `1 === 1` comparison, the `c4` non-null
assertion, the `c6` ternary and the `c10` comment), the zero-span
configuration diagnostic is among the reported diagnostics and its span is
well-formed. -/
theorem C5_witness :
    condConfigDiag ∈ switchRuleDiags true false c7T c7O c2Sf charTrue charTrue c7Node
        ++ condRuleConfigDiags false false
        ++ checkIfBinaryExpressionIsNecessaryConditional c7T c7O false c8Node
        ++ nonNullDiags c7T c7O (fun _ => false) c4Node
        ++ ternaryCheck c7T c7O false c6Ternary
        ++ tsExpectErrorDiags c10Text [c10Comment] ∧
    SpanOk 100 condConfigDiag :=
  ⟨by decide,
   C5_every_reported_span_wellformed 100 true false false false false c7T c7O c2Sf
     charTrue charTrue (fun _ => false) c7Node c8Node c4Node c6Ternary c10Text [c10Comment]
     (by unfold SwitchWF; decide) (by decide) (by decide) (by decide) (by decide)
     condConfigDiag (by decide)⟩

/-- Witness for C3's characterization: identical handles are unchanged. -/
theorem C3_witness : isTypeUnchanged true c3T 2 2 = true :=
  (C3_isTypeUnchanged_characterization true c3T 2 2).mpr (Or.inl rfl)
